import Mathlib

/-!
Shallow embedding of the `setup-jdk` GitHub action installer
(`src/installer.ts`) together with proofs about its behaviour.

The embedding models:
  * the Spec Resolver (`getFeatureVersion`, `getReleaseType`,
    `getAdoptOpenJdkUrl`, with the JavaScript primitives
    `String.prototype.replace` and `encodeURIComponent` modelled
    explicitly),
  * the Cache Key Builder (`getCacheVersionSpec`),
  * the Retrying Fetcher (`retry`, with an explicit fuel parameter since
    the source recursion does not terminate for negative budgets),
  * the Archive Extractor (`extractFiles`, over an abstract file-stat
    oracle),
  * the Post-Extract Normalizer (`unpackJars`, over a finite
    directory-tree model of the filesystem; JavaScript `for ... in`
    enumeration over an array yields the array indices "0", "1", ... as
    strings, and the model reproduces that),
  * the top-level pipeline `downloadJavaBinary` as a trace of effects
    over an oracle `World`.
-/

namespace SetupJdk

/-! ## JavaScript string primitives -/

/-- `startsWithList pat s` is true when `pat` is an initial segment of `s`
(character lists). -/
def startsWithList : List Char → List Char → Bool
  | [], _ => true
  | _ :: _, [] => false
  | p :: ps, c :: cs => p = c && startsWithList ps cs

/-- JavaScript `s.replace(pat, rep)` with a string pattern: replaces only
the first occurrence of `pat` in `s`, scanning left to right; if `pat`
does not occur, the string is returned unchanged. -/
def replaceFirstList (pat rep : List Char) : List Char → List Char
  | [] => if startsWithList pat [] then rep else []
  | c :: cs =>
    if startsWithList pat (c :: cs) then rep ++ (c :: cs).drop pat.length
    else c :: replaceFirstList pat rep cs

/-- Whether `pat` occurs as a contiguous substring of `s`. -/
def containsSubList (pat : List Char) : List Char → Bool
  | [] => startsWithList pat []
  | c :: cs => startsWithList pat (c :: cs) || containsSubList pat cs

/-- JavaScript `s.replace(pat, rep)` lifted to `String`. -/
def jsReplaceFirst (s pat rep : String) : String :=
  ⟨replaceFirstList pat.data rep.data s.data⟩

/-- Hexadecimal digit (uppercase), as used by `encodeURIComponent`. -/
def hexDigit (n : Nat) : Char :=
  if n < 10 then Char.ofNat (48 + n) else Char.ofNat (55 + n)

/-- The UTF-8 byte sequence of a character (code point), as percent-encoded
by `encodeURIComponent`. -/
def utf8Bytes (c : Char) : List Nat :=
  let n := c.toNat
  if n < 0x80 then [n]
  else if n < 0x800 then [0xC0 + n / 64, 0x80 + n % 64]
  else if n < 0x10000 then
    [0xE0 + n / 4096, 0x80 + (n / 64) % 64, 0x80 + n % 64]
  else
    [0xF0 + n / 262144, 0x80 + (n / 4096) % 64, 0x80 + (n / 64) % 64,
     0x80 + n % 64]

/-- The characters `encodeURIComponent` leaves unescaped:
`A-Z a-z 0-9 - _ . ! ~ * ' ( )`. -/
def isUriUnescaped (c : Char) : Bool :=
  c.isAlpha || c.isDigit || c = '-' || c = '_' || c = '.' || c = '!' ||
    c = '~' || c = '*' || c = Char.ofNat 39 || c = '(' || c = ')'

/-- Percent-encoding of one byte, e.g. `43 ↦ "%2B"`. -/
def percentByte (n : Nat) : List Char :=
  ['%', hexDigit (n / 16), hexDigit (n % 16)]

/-- JavaScript `encodeURIComponent`. -/
def encodeURIComponent (s : String) : String :=
  ⟨(s.data.map fun c =>
      if isUriUnescaped c then [c] else (utf8Bytes c).flatMap percentByte).flatten⟩

/-! ## Spec Resolver (`installer.ts`, lines 44–76) -/

/-- `getFeatureVersion` from the source:
`version.replace('openjdk', '')`. -/
def getFeatureVersion (version : String) : String :=
  jsReplaceFirst version "openjdk" ""

/-- `getReleaseType` from the source: maps the aliases
`"releases" ↦ "ga"` and `"nightly" ↦ "ea"`, passing any other value
through verbatim. -/
def getReleaseType (release_type : String) : String :=
  if release_type = "releases" then "ga"
  else if release_type = "nightly" then "ea"
  else release_type

/-- `getAdoptOpenJdkUrl` from the source: two URL templates selected by
whether `release == "latest"`; the exact-release template percent-encodes
the release identifier. -/
def getAdoptOpenJdkUrl (release_type version jvm_impl os arch heap_size
    release : String) : String :=
  let feature_version := getFeatureVersion version
  let release_type_parsed := getReleaseType release_type
  if release = "latest" then
    "https://api.adoptopenjdk.net/v3/binary/latest/" ++ feature_version ++
      "/" ++ release_type_parsed ++ "/" ++ os ++ "/" ++ arch ++ "/jdk/" ++
      jvm_impl ++ "/" ++ heap_size ++ "/adoptopenjdk"
  else
    let release_name := encodeURIComponent release
    "https://api.adoptopenjdk.net/v3/binary/version/" ++ release_name ++
      "/" ++ os ++ "/" ++ arch ++ "/jdk/" ++ jvm_impl ++ "/" ++ heap_size ++
      "/adoptopenjdk"

/-! ## Retrying Fetcher (`installer.ts`, lines 163–186)

The source function is a self-recursion on a JavaScript number budget
(`retriesLeft`); the documentation states that a budget of `-1` retries
forever, so the recursion is not terminating in general and the model
carries an explicit fuel parameter. A fetch attempt is modelled as a
function from the attempt index to `Except`. -/

/-- The terminal error thrown by `retry` when the budget is exhausted. -/
def maxRetriesMsg : String := "Unable to download JDK, max retries reached"

/-- Outcome of a `retry` run: the final result, the number of attempts
performed, and the list of inter-attempt delays (in milliseconds) that
were awaited, in order. -/
structure RetryResult (α : Type) where
  result : Except String α
  attempts : Nat
  delays : List Int
deriving Repr

/-- The `retry` function from the source. `fn` maps the attempt index to
that attempt's outcome; `retriesLeft` is the remaining budget (a
JavaScript number, possibly negative — `if (retriesLeft)` is the truthy
test `retriesLeft ≠ 0`); `interval` is the current delay and is doubled
on each failure when `exponential` is set. The outer `Nat` is fuel: the
source recursion does not terminate when the budget never reaches zero. -/
def retry {α : Type} (fn : Nat → Except String α) (attempt : Nat)
    (retriesLeft interval : Int) (exponential : Bool) :
    Nat → Option (RetryResult α)
  | 0 => none
  | fuel + 1 =>
    match fn attempt with
    | .ok v => some ⟨.ok v, 1, []⟩
    | .error _ =>
      if retriesLeft ≠ 0 then
        match retry fn (attempt + 1) (retriesLeft - 1)
            (if exponential then interval * 2 else interval) exponential fuel with
        | some r => some ⟨r.result, r.attempts + 1, interval :: r.delays⟩
        | none => none
      else some ⟨.error maxRetriesMsg, 1, []⟩

/-! ## Archive Extractor (`installer.ts`, lines 199–225) -/

/-- What a path names on the host filesystem. -/
inductive FileStat where
  | missing
  | regular
  | directory
deriving DecidableEq, Repr

/-- The stat record consulted by the source (`stats.isFile()`,
`stats.isDirectory()`). -/
structure Stats where
  isFile : Bool
  isDirectory : Bool
deriving DecidableEq, Repr

/-- Node's `fs.statSync`: throws an ENOENT error when the path does not
exist, otherwise returns the stat record. -/
def statSync (st : FileStat) (p : String) : Except String Stats :=
  match st with
  | .missing => .error ("ENOENT: no such file or directory, stat '" ++ p ++ "'")
  | .regular => .ok ⟨true, false⟩
  | .directory => .ok ⟨false, true⟩

/-- Which decompression routine `extractFiles` dispatched to. -/
inductive ExtractKind where
  | tar
  | zip
  | sevenZip
deriving DecidableEq, Repr

/-- `extractFiles` from the source: stat the file (Node throws ENOENT if
it is missing — the source's own `if (!stats)` null-check can never fire
because a stats object is always truthy), reject directories, then
dispatch on the declared extension (`.tar` and `.tar.gz` share the tar
branch, as in the source's switch fall-through). -/
def extractFiles (st : FileStat) (file fileEnding : String) :
    Except String ExtractKind :=
  match statSync st file with
  | .error e => .error e
  | .ok stats =>
    if stats.isDirectory then
      .error ("Failed to extract " ++ file ++ " - it is a directory")
    else if fileEnding = ".tar" || fileEnding = ".tar.gz" then .ok .tar
    else if fileEnding = ".zip" then .ok .zip
    else if fileEnding = ".7z" then .ok .sevenZip
    else .error ("Failed to extract " ++ file ++ " - unknown compression")

/-! ## Path helpers (POSIX `path` module, as used by the source) -/

/-- `path.join` for two segments. -/
def pathJoin (a b : String) : String :=
  if a = "" then b else if b = "" then a else a ++ "/" ++ b

/-- The final path segment (characters after the last separator). -/
def basenameList (l : List Char) : List Char :=
  (l.reverse.takeWhile (fun c => c ≠ '/')).reverse

/-- `path.extname`: the extension of the basename, from its last dot to
the end; a dot at position 0 of the basename (dotfile) or no dot at all
yields the empty string. -/
def extnameOf (s : String) : String :=
  let rb := (basenameList s.data).reverse
  let pre := rb.takeWhile (fun c => c ≠ '.')
  if pre.length + 1 < rb.length then ⟨'.' :: pre.reverse⟩ else ""

/-- `path.dirname`. -/
def dirnameOf (s : String) : String :=
  let rest := s.data.reverse.dropWhile (fun c => c ≠ '/')
  match rest with
  | [] => "."
  | [_] => "/"
  | _ :: t => ⟨t.reverse⟩

/-- `path.parse(p).name`: the basename with its extension removed. -/
def parseNameOf (s : String) : String :=
  let b := basenameList s.data
  ⟨b.take (b.length - (extnameOf s).data.length)⟩

/-- ASCII lowercasing of a string (`String.prototype.toLowerCase` on the
ASCII extensions in play). -/
def toLowerStr (s : String) : String := ⟨s.data.map Char.toLower⟩

/-! ## Post-Extract Normalizer (`installer.ts`, lines 227–246) -/

/-- A finite directory tree: the filesystem fragment `unpackJars` walks. -/
inductive FSTree where
  | file : FSTree
  | dir : List (String × FSTree) → FSTree

/-- Look up a directory entry by name. -/
def findEntry (name : String) : List (String × FSTree) → Option FSTree
  | [] => none
  | (n, t) :: rest => if n = name then some t else findEntry name rest

/-- An `exec.exec` invocation recorded by the walk. -/
structure ExecCall where
  commandLine : String
  execArgs : List String
deriving DecidableEq, Repr

/-- The `exec.exec` call the source issues for a `.pack` file at
`fsPath`: the platform-specific `unpack200` executable from
`javaBinPath`, with the `.pack` source and sibling `.jar` target built
from the path without its extension. -/
def mkUnpackCall (isWindows : Bool) (javaBinPath fsPath : String) : ExecCall :=
  let tool := if isWindows then "unpack200.exe" else "unpack200"
  let argStr := if isWindows then "-r -v -l \"\"" else ""
  let name := pathJoin (dirnameOf fsPath) (parseNameOf fsPath)
  ⟨"\"" ++ pathJoin javaBinPath tool ++ "\"",
   [argStr ++ " \"" ++ name ++ ".pack\" \"" ++ name ++ ".jar\""]⟩

theorem findEntry_sizeOf_le (name : String) (entries : List (String × FSTree)) :
    sizeOf (findEntry name entries) ≤ sizeOf entries := by
  induction entries with
  | nil => simp [findEntry]
  | cons hd tl ih =>
    obtain ⟨n, t⟩ := hd
    by_cases h : n = name
    · simp [findEntry, h]
      omega
    · simp only [findEntry, h, if_false]
      simp only [List.cons.sizeOf_spec, Prod.mk.sizeOf_spec]
      omega

/-- `unpackJars` from the source, as the list of `exec.exec` calls it
performs, in order. The argument is the filesystem node at `fsPath`
(`none` when `fs.existsSync(fsPath)` is false). For a directory the
source iterates `for (const file in fs.readdirSync(fsPath))`: JavaScript
`for ... in` over an array enumerates its indices `"0", "1", ...` as
strings, so each recursive call joins the index — not the entry name —
onto `fsPath`; the model reproduces that with `findEntry (toString i)`.
For a regular file, a `.pack` extension (lowercased) triggers one
unpack200 invocation. -/
def unpackJars (o : Option FSTree) (fsPath javaBinPath : String)
    (isWindows : Bool) : List ExecCall :=
  match o with
  | none => []
  | some FSTree.file =>
    if toLowerStr (extnameOf fsPath) = ".pack" then
      [mkUnpackCall isWindows javaBinPath fsPath]
    else []
  | some (FSTree.dir entries) =>
    (List.range entries.length).flatMap fun i =>
      unpackJars (findEntry (toString i) entries)
        (pathJoin fsPath (toString i)) javaBinPath isWindows
termination_by sizeOf o
decreasing_by
  simp only [Option.some.sizeOf_spec, FSTree.dir.sizeOf_spec]
  have := findEntry_sizeOf_le (toString i) entries
  omega

/-! ## Cache Key Builder (`installer.ts`, lines 188–197) -/

/-- `getCacheVersionSpec` from the source. Note that the source takes an
`os` parameter but never uses it, and that the fields are the raw request
fields as passed by `downloadJavaBinary` (no alias normalization). -/
def getCacheVersionSpec (release_type version jvm_impl os heap_size
    release : String) : String :=
  "1.0.0-" ++ release_type ++ "-" ++ version ++ "-" ++ jvm_impl ++ "-" ++
    heap_size ++ "-" ++ release

/-- The version spec as computed inside `downloadJavaBinary`: the
architecture is in scope at the call site (line 106) but is not passed
to `getCacheVersionSpec`. -/
def requestVersionSpec (release_type version jvm_impl os arch heap_size
    release : String) : String :=
  getCacheVersionSpec release_type version jvm_impl os heap_size release

/-! ## Top-level pipeline (`installer.ts`, lines 97–151 and 248–279)

The pipeline's interactions with the outside world (tool cache, network,
filesystem, environment) are modelled by an oracle `World` supplying the
responses, and the pipeline's observable behaviour is the ordered list
of effects it performs. -/

/-- The constant `toolName` from the source (line 10). -/
def toolName : String := "AdoptOpenJDK"

/-- One observable effect of the pipeline. -/
inductive Action where
  | debug (msg : String)
  | info (msg : String)
  | mkdirP (dir : String)
  | download (url : String) (attempts : Nat)
  | extract (kind : ExtractKind) (file dest : String)
  | execCmd (call : ExecCall)
  | cacheStore (dir tool spec arch : String)
  | exportVariable (name value : String)
  | addPath (p : String)
deriving DecidableEq, Repr

/-- Responses of the external collaborators consulted by the pipeline. -/
structure World where
  /-- `IS_WINDOWS` (line 8). -/
  isWindows : Bool
  /-- `IS_MACOS` (line 9). -/
  isMacos : Bool
  /-- `tempDirectory` (line 12). -/
  tempDirectory : String
  /-- `tc.find tool versionSpec arch`: the cached path, `""` on a miss
  (the source tests it for truthiness). -/
  findTool : String → String → String → String
  /-- Outcome of the `tc.downloadTool url` attempt with the given index. -/
  fetch : Nat → Except String String
  /-- `Math.floor(Math.random() * 2000000000)` (line 136). -/
  rand : Nat
  /-- `fs.statSync` / `fs.existsSync` view of a path. -/
  stat : String → FileStat
  /-- `fs.readdirSync` of a directory. -/
  readdir : String → List String
  /-- The directory tree rooted at a path, `none` if the path does not
  exist; consumed by `unpackJars`. -/
  subtree : String → Option FSTree
  /-- The durable path returned by `tc.cacheDir dir tool versionSpec arch`. -/
  cacheDirResult : String → String → String → String → String

/-- `getJdkDirectory` from the source: the first `readdirSync` entry of
the extraction root, nested under `Contents/Home` on macOS. For an empty
directory, `readdirSync(dest)[0]` is `undefined` and `path.join` throws
a TypeError. -/
def getJdkDirectory (w : World) (destinationFolder : String) :
    Except String String :=
  match w.readdir destinationFolder with
  | [] => .error "TypeError: the path argument must be of type string"
  | first :: _ =>
    if w.isMacos then
      .ok (pathJoin (pathJoin (pathJoin destinationFolder first) "Contents")
        "Home")
    else .ok (pathJoin destinationFolder first)

/-- `unzipJavaDownload` from the source: create the destination folder,
require the downloaded path to be a regular file (`statSync` throws
ENOENT on a missing path before the `isFile` test), extract, locate the
JDK directory, expand pack files, and return the JDK directory. The
`path.normalize` call is the identity on the already-normal paths in
use. -/
def unzipJavaDownload (w : World) (repoRoot fileEnding destinationFolder :
    String) : Except String String × List Action :=
  let acts0 : List Action := [.mkdirP destinationFolder]
  let jdkFile := repoRoot
  match statSync (w.stat jdkFile) jdkFile with
  | .error e => (.error e, acts0)
  | .ok stats =>
    if stats.isFile then
      match extractFiles (w.stat jdkFile) jdkFile fileEnding with
      | .error e => (.error e, acts0)
      | .ok kind =>
        match getJdkDirectory w destinationFolder with
        | .error e => (.error e, acts0 ++ [.extract kind jdkFile destinationFolder])
        | .ok jdkDirectory =>
          let calls := unpackJars (w.subtree jdkDirectory) jdkDirectory
              (pathJoin jdkDirectory "bin") w.isWindows
          (.ok jdkDirectory,
            acts0 ++ [.extract kind jdkFile destinationFolder] ++
              calls.map .execCmd)
    else (.error ("JDK argument " ++ jdkFile ++ " is not a file"), acts0)

/-- `downloadJavaBinary` from the source: build the version spec (from
the raw request fields, architecture excluded), probe the tool cache,
on a miss run fetch → extract → normalize → store, then publish
`JAVA_HOME`, the version-and-architecture-qualified variable, and the
`bin` path entry. The fuel 11 handed to `retry` covers the at most
10 + 1 attempts of the budget-10 call on line 131, so the `none` branch
is unreachable. -/
def downloadJavaBinary (w : World) (release_type version jvm_impl os arch
    heap_size release : String) : Except String Unit × List Action :=
  let versionSpec := getCacheVersionSpec release_type version jvm_impl os
      heap_size release
  let toolPath := w.findTool toolName versionSpec arch
  let branch : Except String String × List Action :=
    if toolPath ≠ "" then
      (.ok toolPath, [.debug ("Tool found in cache " ++ toolPath)])
    else
      let url := getAdoptOpenJdkUrl release_type version jvm_impl os arch
          heap_size release
      let acts0 : List Action :=
        [.debug "Downloading JDK from AdoptOpenJDK",
         .info ("Downloading JDK from " ++ url)]
      match retry w.fetch 0 10 1000 true 11 with
      | none => (.error "unreachable: budget 10 needs at most 11 attempts", acts0)
      | some r =>
        match r.result with
        | .error e => (.error e, acts0 ++ [.download url r.attempts])
        | .ok jdkFile =>
          let compressedFileExtension := if w.isWindows then ".zip" else ".tar.gz"
          let tempDir := pathJoin w.tempDirectory
              ("adoptopenjdk_" ++ toString w.rand)
          match unzipJavaDownload w jdkFile compressedFileExtension tempDir with
          | (.error e, acts) => (.error e, acts0 ++ [.download url r.attempts] ++ acts)
          | (.ok jdkDir, acts) =>
            let stored := w.cacheDirResult jdkDir toolName versionSpec arch
            (.ok stored,
              acts0 ++ [.download url r.attempts] ++ acts ++
                [.cacheStore jdkDir toolName versionSpec arch])
  match branch with
  | (.error e, acts) => (.error e, acts)
  | (.ok tp, acts) =>
    let extendedJavaHome := "JAVA_HOME_" ++ version ++ "_" ++ arch
    (.ok (),
      acts ++ [.exportVariable "JAVA_HOME" tp,
               .exportVariable extendedJavaHome tp,
               .addPath (pathJoin tp "bin")])

/-- The effects by which the miss branch of the pipeline differs from a
cache hit: network downloads, extraction work, external processes, and
cache population. -/
def isPipelineWork : Action → Bool
  | .mkdirP _ => true
  | .download _ _ => true
  | .extract _ _ _ => true
  | .execCmd _ => true
  | .cacheStore _ _ _ _ => true
  | _ => false

/-! ## Helper lemmas about `retry` -/

theorem retry_succeeds {α : Type} (fn : Nat → Except String α) (v : α) :
    ∀ (m s : Nat) (r i : Int) (e : Bool) (fuel : Nat),
      (∀ j, j < m → (fn (s + j)).isOk = false) →
      fn (s + m) = .ok v → (m : Int) ≤ r → m < fuel →
      ∃ res, retry fn s r i e fuel = some res ∧
        res.result = .ok v ∧ res.attempts = m + 1 := by
  intro m
  induction m with
  | zero =>
    intro s r i e fuel hfail hsucc hr hfuel
    simp only [Nat.add_zero] at hsucc
    cases fuel with
    | zero => exact absurd hfuel (by omega)
    | succ f => exact ⟨⟨.ok v, 1, []⟩, by simp [retry, hsucc], rfl, rfl⟩
  | succ m ih =>
    intro s r i e fuel hfail hsucc hr hfuel
    cases fuel with
    | zero => exact absurd hfuel (by omega)
    | succ f =>
      have h0 : (fn s).isOk = false := by
        have := hfail 0 (by omega)
        simpa using this
      obtain ⟨e0, he0⟩ : ∃ e0, fn s = .error e0 := by
        cases hfn : fn s with
        | ok w => rw [hfn] at h0; simp [Except.isOk, Except.toBool] at h0
        | error e0 => exact ⟨e0, rfl⟩
      have hr0 : r ≠ 0 := by omega
      obtain ⟨res, hres, hresult, hatt⟩ :=
        ih (s + 1) (r - 1) (if e then i * 2 else i) e f
          (fun j hj => by
            have h := hfail (j + 1) (by omega)
            have heq : s + (j + 1) = s + 1 + j := by omega
            rw [heq] at h
            exact h)
          (by
            have heq : s + (m + 1) = s + 1 + m := by omega
            rw [heq] at hsucc
            exact hsucc)
          (by omega) (by omega)
      refine ⟨⟨res.result, res.attempts + 1, i :: res.delays⟩, ?_, hresult, by simp [hatt]⟩
      simp [retry, he0, hr0, hres]

theorem retry_exhausts {α : Type} (fn : Nat → Except String α) :
    ∀ (rb s : Nat) (i : Int) (e : Bool) (fuel : Nat),
      (∀ j, j ≤ rb → (fn (s + j)).isOk = false) → rb < fuel →
      ∃ res, retry fn s (rb : Int) i e fuel = some res ∧
        res.result = .error maxRetriesMsg ∧ res.attempts = rb + 1 := by
  intro rb
  induction rb with
  | zero =>
    intro s i e fuel hfail hfuel
    cases fuel with
    | zero => exact absurd hfuel (by omega)
    | succ f =>
      have h0 : (fn s).isOk = false := by
        have := hfail 0 (by omega)
        simpa using this
      obtain ⟨e0, he0⟩ : ∃ e0, fn s = .error e0 := by
        cases hfn : fn s with
        | ok w => rw [hfn] at h0; simp [Except.isOk, Except.toBool] at h0
        | error e0 => exact ⟨e0, rfl⟩
      exact ⟨⟨.error maxRetriesMsg, 1, []⟩, by simp [retry, he0], rfl, rfl⟩
  | succ rb ih =>
    intro s i e fuel hfail hfuel
    cases fuel with
    | zero => exact absurd hfuel (by omega)
    | succ f =>
      have h0 : (fn s).isOk = false := by
        have := hfail 0 (by omega)
        simpa using this
      obtain ⟨e0, he0⟩ : ∃ e0, fn s = .error e0 := by
        cases hfn : fn s with
        | ok w => rw [hfn] at h0; simp [Except.isOk, Except.toBool] at h0
        | error e0 => exact ⟨e0, rfl⟩
      have hne : ¬((rb : Int) + 1 = 0) := by omega
      have hcast : ((rb : Int) + 1) - 1 = (rb : Int) := by omega
      obtain ⟨res, hres, hresult, hatt⟩ :=
        ih (s + 1) (if e then i * 2 else i) e f
          (fun j hj => by
            have h := hfail (j + 1) (by omega)
            have heq : s + (j + 1) = s + 1 + j := by omega
            rw [heq] at h
            exact h)
          (by omega)
      refine ⟨⟨res.result, res.attempts + 1, i :: res.delays⟩, ?_, hresult, by simp [hatt]⟩
      simp [retry, he0, hne, hcast, hres]

theorem retry_total {α : Type} (fn : Nat → Except String α) :
    ∀ (fuel s : Nat) (r i : Int) (e : Bool),
      0 ≤ r → r.toNat < fuel → (retry fn s r i e fuel).isSome = true := by
  intro fuel
  induction fuel with
  | zero => intro s r i e hr hf; exact absurd hf (by omega)
  | succ f ih =>
    intro s r i e hr hf
    cases hfn : fn s with
    | ok v => simp [retry, hfn]
    | error e0 =>
      by_cases h0 : r = 0
      · simp [retry, hfn, h0]
      · have hrec := ih (s + 1) (r - 1) (if e then i * 2 else i) e
          (by omega) (by omega)
        simp only [retry, hfn]
        rw [if_pos h0]
        cases hr2 : retry fn (s + 1) (r - 1) (if e then i * 2 else i) e f with
        | none => rw [hr2] at hrec; simp at hrec
        | some res => simp

theorem retry_neg_none {α : Type} (fn : Nat → Except String α)
    (hfail : ∀ k, (fn k).isOk = false) :
    ∀ (fuel s : Nat) (r i : Int) (e : Bool), r < 0 →
      retry fn s r i e fuel = none := by
  intro fuel
  induction fuel with
  | zero => intro s r i e hr; rfl
  | succ f ih =>
    intro s r i e hr
    obtain ⟨e0, he0⟩ : ∃ e0, fn s = .error e0 := by
      have h0 := hfail s
      cases hfn : fn s with
      | ok w => rw [hfn] at h0; simp [Except.isOk, Except.toBool] at h0
      | error e0 => exact ⟨e0, rfl⟩
    have h0 : r ≠ 0 := by omega
    have hrec := ih (s + 1) (r - 1) (if e then i * 2 else i) e (by omega)
    simp [retry, he0, h0, hrec]

/-! ## Helper lemmas about strings and the cache key -/

theorem sepSplitList {a a' b b' : List Char}
    (ha : '-' ∉ a) (ha' : '-' ∉ a')
    (h : a ++ '-' :: b = a' ++ '-' :: b') : a = a' ∧ b = b' := by
  induction a generalizing a' with
  | nil =>
    cases a' with
    | nil => simpa using h
    | cons c t =>
      exfalso
      simp only [List.nil_append, List.cons_append, List.cons.injEq] at h
      exact ha' (h.1 ▸ List.mem_cons_self c t)
  | cons c t ih =>
    cases a' with
    | nil =>
      exfalso
      simp only [List.nil_append, List.cons_append, List.cons.injEq] at h
      exact ha (h.1 ▸ List.mem_cons_self c t)
    | cons c' t' =>
      simp only [List.cons_append, List.cons.injEq] at h
      obtain ⟨rfl, h2⟩ := h
      have hrec := ih (fun hm => ha (List.mem_cons_of_mem _ hm))
        (fun hm => ha' (List.mem_cons_of_mem _ hm)) h2
      exact ⟨by rw [hrec.1], hrec.2⟩

theorem getCacheVersionSpec_data (r v i o h rel : String) :
    (getCacheVersionSpec r v i o h rel).data =
      "1.0.0".data ++ '-' :: (r.data ++ '-' :: (v.data ++ '-' ::
        (i.data ++ '-' :: (h.data ++ '-' :: rel.data)))) := by
  simp only [getCacheVersionSpec, String.data_append, List.append_assoc]
  rfl

theorem getCacheVersionSpec_length (r v i o h rel : String) :
    (getCacheVersionSpec r v i o h rel).data.length =
      r.data.length + v.data.length + i.data.length + h.data.length +
        rel.data.length + 10 := by
  rw [getCacheVersionSpec_data]
  have h5 : ("1.0.0" : String).data.length = 5 := rfl
  simp only [List.length_append, List.length_cons, h5]
  omega

theorem startsWithList_self_append (pat r : List Char) :
    startsWithList pat (pat ++ r) = true := by
  induction pat with
  | nil => rfl
  | cons c cs ih => simp [startsWithList, ih]

theorem replaceFirstList_self_append (pat rep r : List Char) :
    replaceFirstList pat rep (pat ++ r) = rep ++ r := by
  cases pat with
  | nil =>
    cases r with
    | nil => simp [replaceFirstList, startsWithList]
    | cons x xs => simp [replaceFirstList, startsWithList]
  | cons p ps =>
    have hsw : startsWithList (p :: ps) (p :: ps.append r) = true :=
      startsWithList_self_append (p :: ps) r
    have hdrop : List.drop ps.length (ps.append r) = r := List.drop_left ps r
    simp only [List.cons_append, replaceFirstList, List.length_cons,
      List.drop_succ_cons, hsw, hdrop, if_true]

theorem replaceFirstList_not_contains (pat rep : List Char) :
    ∀ s, containsSubList pat s = false → replaceFirstList pat rep s = s := by
  intro s
  induction s with
  | nil =>
    intro h
    simp only [containsSubList] at h
    simp [replaceFirstList, h]
  | cons c cs ih =>
    intro h
    simp only [containsSubList, Bool.or_eq_false_iff] at h
    simp [replaceFirstList, h.1, ih h.2]

theorem startsWithList_length_le :
    ∀ pat s : List Char, startsWithList pat s = true →
      pat.length ≤ s.length := by
  intro pat
  induction pat with
  | nil => intro s _; simp
  | cons p ps ih =>
    intro s h
    cases s with
    | nil => simp [startsWithList] at h
    | cons c cs =>
      simp only [startsWithList, Bool.and_eq_true, decide_eq_true_eq] at h
      have := ih cs h.2
      simp only [List.length_cons]
      omega

theorem replaceFirstList_first_occurrence (pat rep : List Char) :
    ∀ a b : List Char,
      (∀ a₁ a₂ : List Char, a = a₁ ++ a₂ → a₂ ≠ [] →
        startsWithList pat (a₂ ++ (pat ++ b)) = false) →
      replaceFirstList pat rep (a ++ (pat ++ b)) = a ++ (rep ++ b) := by
  intro a
  induction a with
  | nil =>
    intro b hfirst
    simpa using replaceFirstList_self_append pat rep b
  | cons c a2 ih =>
    intro b hfirst
    have hsw : startsWithList pat ((c :: a2) ++ (pat ++ b)) = false :=
      hfirst [] (c :: a2) rfl (by simp)
    have hih := ih b (fun a₁ a₂ hsplit hne =>
      hfirst (c :: a₁) a₂ (by rw [hsplit]; rfl) hne)
    simp only [List.cons_append] at hsw ⊢
    simp only [replaceFirstList, hsw, Bool.false_eq_true, if_false]
    rw [hih]

theorem replaceFirstList_length_of_contains (pat rep : List Char) :
    ∀ s, containsSubList pat s = true →
      (replaceFirstList pat rep s).length + pat.length =
        s.length + rep.length := by
  intro s
  induction s with
  | nil =>
    intro h
    simp only [containsSubList] at h
    have hlen := startsWithList_length_le pat [] h
    have hpat : pat = [] := List.eq_nil_of_length_eq_zero (by simpa using hlen)
    subst hpat
    simp [replaceFirstList, startsWithList]
  | cons c cs ih =>
    intro h
    cases hsw : startsWithList pat (c :: cs) with
    | true =>
      have hle := startsWithList_length_le pat (c :: cs) hsw
      simp only [replaceFirstList, hsw, if_true, List.length_append,
        List.length_drop, List.length_cons]
      simp only [List.length_cons] at hle
      omega
    | false =>
      have hc : containsSubList pat cs = true := by
        simp only [containsSubList, hsw, Bool.false_or] at h
        exact h
      simp only [replaceFirstList, hsw, Bool.false_eq_true, if_false,
        List.length_cons]
      have := ih hc
      omega

theorem getFeatureVersion_strip (t : String) :
    getFeatureVersion ("openjdk" ++ t) = t := by
  show jsReplaceFirst ("openjdk" ++ t) "openjdk" "" = t
  unfold jsReplaceFirst
  rw [String.data_append, replaceFirstList_self_append]
  rfl

theorem getFeatureVersion_no_occurrence (s : String)
    (h : containsSubList "openjdk".data s.data = false) :
    getFeatureVersion s = s := by
  show jsReplaceFirst s "openjdk" "" = s
  unfold jsReplaceFirst
  rw [replaceFirstList_not_contains _ _ _ h]

/-! ## Claim theorems -/

/-- C1 (counterexample): "releases" and "ga" are alias-equal under
`getReleaseType`, yet the version specs built by `downloadJavaBinary`
for the two spellings differ, so semantically-equal requests do not
produce an identical VersionSpec. -/
theorem cacheKey_alias_cex :
    getReleaseType "releases" = getReleaseType "ga"
    ∧ getCacheVersionSpec "releases" "11" "hotspot" "linux" "normal" "latest" ≠
      getCacheVersionSpec "ga" "11" "hotspot" "linux" "normal" "latest" :=
  ⟨by decide, by decide⟩

/-- C1 (amended): alias normalization is never applied to the cache
key, so the invariant fails on every alias-equal pair of the claim's
families: for all surrounding fields, the alias-equal releaseType
spellings "releases" vs "ga" (likewise "nightly" vs "ea") produce
different VersionSpecs, and for every featureVersion `t` that contains
no "openjdk" occurrence, the alias-equal spellings "openjdk" ++ t vs t
produce different VersionSpecs. -/
theorem cacheKey_uses_raw_fields :
    (∀ version jvm_impl os heap_size release : String,
      getReleaseType "releases" = getReleaseType "ga"
      ∧ getCacheVersionSpec "releases" version jvm_impl os heap_size release ≠
        getCacheVersionSpec "ga" version jvm_impl os heap_size release)
    ∧ (∀ version jvm_impl os heap_size release : String,
      getReleaseType "nightly" = getReleaseType "ea"
      ∧ getCacheVersionSpec "nightly" version jvm_impl os heap_size release ≠
        getCacheVersionSpec "ea" version jvm_impl os heap_size release)
    ∧ (∀ t release_type jvm_impl os heap_size release : String,
      containsSubList "openjdk".data t.data = false →
      getFeatureVersion ("openjdk" ++ t) = getFeatureVersion t
      ∧ getCacheVersionSpec release_type ("openjdk" ++ t) jvm_impl os
          heap_size release ≠
        getCacheVersionSpec release_type t jvm_impl os heap_size release) := by
  refine ⟨?_, ?_, ?_⟩
  · intro version jvm_impl os heap_size release
    refine ⟨by decide, ?_⟩
    intro hkey
    have hlen := congrArg (fun s => s.data.length) hkey
    simp only [getCacheVersionSpec_length] at hlen
    have h8 : ("releases" : String).data.length = 8 := rfl
    have h2 : ("ga" : String).data.length = 2 := rfl
    rw [h8, h2] at hlen
    omega
  · intro version jvm_impl os heap_size release
    refine ⟨by decide, ?_⟩
    intro hkey
    have hlen := congrArg (fun s => s.data.length) hkey
    simp only [getCacheVersionSpec_length] at hlen
    have h7 : ("nightly" : String).data.length = 7 := rfl
    have h2 : ("ea" : String).data.length = 2 := rfl
    rw [h7, h2] at hlen
    omega
  · intro t release_type jvm_impl os heap_size release ht
    refine ⟨?_, ?_⟩
    · rw [getFeatureVersion_strip, getFeatureVersion_no_occurrence t ht]
    · intro hkey
      have hlen := congrArg (fun s => s.data.length) hkey
      simp only [getCacheVersionSpec_length] at hlen
      have hpre : ("openjdk" ++ t).data.length = t.data.length + 7 := by
        rw [String.data_append, List.length_append]
        have h7 : ("openjdk" : String).data.length = 7 := rfl
        omega
      rw [hpre] at hlen
      omega

/-- Witness for C1's theorem: both alias families at a concrete
request, with the no-occurrence hypothesis discharged for t = "11". -/
theorem cacheKey_uses_raw_fields_witness :
    (getReleaseType "releases" = getReleaseType "ga"
      ∧ getCacheVersionSpec "releases" "11" "hotspot" "linux" "normal"
          "latest" ≠
        getCacheVersionSpec "ga" "11" "hotspot" "linux" "normal" "latest")
    ∧ (getFeatureVersion ("openjdk" ++ "11") = getFeatureVersion "11"
      ∧ getCacheVersionSpec "ga" ("openjdk" ++ "11") "hotspot" "linux"
          "normal" "latest" ≠
        getCacheVersionSpec "ga" "11" "hotspot" "linux" "normal" "latest") :=
  ⟨cacheKey_uses_raw_fields.1 "11" "hotspot" "linux" "normal" "latest",
   cacheKey_uses_raw_fields.2.2 "11" "ga" "hotspot" "linux" "normal" "latest"
      (by decide)⟩

/-- C4 (counterexample): the dash-joined key is not injective — two
distinct field tuples that merely shift a dash between fields collide. -/
theorem cacheKey_collision_cex :
    getCacheVersionSpec "a-b" "c" "impl" "linux" "heap" "rel" =
      getCacheVersionSpec "a" "b-c" "impl" "linux" "heap" "rel"
    ∧ ("a-b", "c") ≠ ("a", "b-c") :=
  ⟨by decide, by decide⟩

/-- C4 (amended): the version spec used by `downloadJavaBinary` is
independent of the architecture (the architecture is never passed to
`getCacheVersionSpec`), and `getCacheVersionSpec` is injective on the
(releaseType, featureVersion, implementation, heapSize, release) tuple
provided the first four fields contain no dash character — in general
fields containing the dash separator can collide. -/
theorem cacheKey_arch_and_injective :
    (∀ rt v impl os arch arch' heap rel : String,
      requestVersionSpec rt v impl os arch heap rel =
        requestVersionSpec rt v impl os arch' heap rel)
    ∧ (∀ rt v impl os heap rel rt' v' impl' os' heap' rel' : String,
        '-' ∉ rt.data → '-' ∉ rt'.data → '-' ∉ v.data → '-' ∉ v'.data →
        '-' ∉ impl.data → '-' ∉ impl'.data →
        '-' ∉ heap.data → '-' ∉ heap'.data →
        getCacheVersionSpec rt v impl os heap rel =
          getCacheVersionSpec rt' v' impl' os' heap' rel' →
        rt = rt' ∧ v = v' ∧ impl = impl' ∧ heap = heap' ∧ rel = rel') := by
  constructor
  · intro rt v impl os arch arch' heap rel
    rfl
  · intro rt v impl os heap rel rt' v' impl' os' heap' rel'
      hrt hrt' hv hv' himpl himpl' hheap hheap' hkey
    have hd := congrArg String.data hkey
    rw [getCacheVersionSpec_data, getCacheVersionSpec_data] at hd
    have h105 : '-' ∉ ("1.0.0" : String).data := by decide
    obtain ⟨-, hd1⟩ := sepSplitList h105 h105 hd
    obtain ⟨e_rt, hd2⟩ := sepSplitList hrt hrt' hd1
    obtain ⟨e_v, hd3⟩ := sepSplitList hv hv' hd2
    obtain ⟨e_impl, hd4⟩ := sepSplitList himpl himpl' hd3
    obtain ⟨e_heap, e_rel⟩ := sepSplitList hheap hheap' hd4
    exact ⟨String.ext e_rt, String.ext e_v, String.ext e_impl,
      String.ext e_heap, String.ext e_rel⟩

/-- Witness for C4's theorem: the dash-free hypotheses and the key
equality are all satisfiable at a realistic request. -/
theorem cacheKey_arch_and_injective_witness :
    ("ga" : String) = "ga" ∧ ("11" : String) = "11" ∧
    ("hotspot" : String) = "hotspot" ∧ ("normal" : String) = "normal" ∧
    ("latest" : String) = "latest" :=
  cacheKey_arch_and_injective.2 "ga" "11" "hotspot" "linux" "normal" "latest"
    "ga" "11" "hotspot" "linux" "normal" "latest"
    (by decide) (by decide) (by decide) (by decide)
    (by decide) (by decide) (by decide) (by decide) rfl

/-- C7 (counterexample): "xopenjdk" does not start with "openjdk", yet
`getFeatureVersion` does not return it unchanged — JavaScript `replace`
removes the first occurrence anywhere, not only a prefix. -/
theorem getFeatureVersion_cex :
    startsWithList "openjdk".data "xopenjdk".data = false
    ∧ getFeatureVersion "xopenjdk" ≠ "xopenjdk" :=
  ⟨by decide, by decide⟩

/-- C7 (amended): `getFeatureVersion` removes the first occurrence of
"openjdk" anywhere in the string: for every decomposition
`a ++ "openjdk" ++ b` in which "openjdk" matches at no position inside
`a` (i.e. the displayed occurrence is the first), the result is
`a ++ b` — the prefix case is `a = ""`; and a string is returned
unchanged exactly when it contains no occurrence of "openjdk" at all. -/
theorem getFeatureVersion_first_occurrence :
    (∀ a b : String,
      (∀ a₁ a₂ : List Char, a.data = a₁ ++ a₂ → a₂ ≠ [] →
        startsWithList "openjdk".data
          (a₂ ++ ("openjdk".data ++ b.data)) = false) →
      getFeatureVersion (a ++ "openjdk" ++ b) = a ++ b)
    ∧ (∀ s : String,
      getFeatureVersion s = s ↔
        containsSubList "openjdk".data s.data = false) := by
  constructor
  · intro a b hfirst
    apply String.ext
    show (jsReplaceFirst (a ++ "openjdk" ++ b) "openjdk" "").data = (a ++ b).data
    unfold jsReplaceFirst
    have hdata : (a ++ "openjdk" ++ b).data =
        a.data ++ ("openjdk".data ++ b.data) := by
      simp [String.data_append, List.append_assoc]
    show replaceFirstList "openjdk".data "".data (a ++ "openjdk" ++ b).data =
      (a ++ b).data
    rw [hdata,
      replaceFirstList_first_occurrence "openjdk".data "".data a.data b.data
        hfirst, String.data_append]
    rfl
  · intro s
    constructor
    · intro heq
      by_contra hcon
      have hc : containsSubList "openjdk".data s.data = true := by
        cases hval : containsSubList "openjdk".data s.data
        · exact absurd hval hcon
        · rfl
      have hlen := replaceFirstList_length_of_contains "openjdk".data
        "".data s.data hc
      have hdata : (getFeatureVersion s).data = s.data := congrArg String.data heq
      have hred : (getFeatureVersion s).data =
          replaceFirstList "openjdk".data "".data s.data := rfl
      rw [hred] at hdata
      rw [hdata] at hlen
      have h7 : ("openjdk" : String).data.length = 7 := rfl
      have h0 : ("" : String).data.length = 0 := rfl
      rw [h7, h0] at hlen
      omega
    · intro h
      exact getFeatureVersion_no_occurrence s h

/-- Witness for C7's theorem: a non-prefix occurrence ("xopenjdk11")
with the first-occurrence hypothesis discharged, plus the unchanged
characterization at "11". -/
theorem getFeatureVersion_first_occurrence_witness :
    getFeatureVersion ("x" ++ "openjdk" ++ "11") = "x" ++ "11"
    ∧ (getFeatureVersion "11" = "11" ↔
        containsSubList "openjdk".data "11".data = false) := by
  constructor
  · apply getFeatureVersion_first_occurrence.1 "x" "11"
    intro a₁ a₂ hsplit hne
    cases a₁ with
    | nil =>
      simp only [List.nil_append] at hsplit
      rw [← hsplit]
      decide
    | cons c t =>
      exfalso
      apply hne
      have h1 : ('x' :: ([] : List Char)) = c :: (t ++ a₂) := by
        simpa using hsplit
      have h2 := congrArg List.length h1
      simp only [List.length_cons, List.length_append, List.length_nil] at h2
      exact List.eq_nil_of_length_eq_zero (by omega)
  · exact getFeatureVersion_first_occurrence.2 "11"

/-- C2: evaluation of `unpackJars` at a directory holding the single
file "a.pack". The `for ... in` loop enumerates the readdir array's
indices, so the recursion visits "/jdk/0" — which does not exist — and
the traversal produces no unpack200 invocation, although the file's
lowercased extension is ".pack" and a direct visit of the file itself
would produce exactly the expected invocation. -/
theorem unpackJars_for_in_bug :
    unpackJars (some (FSTree.dir [("a.pack", FSTree.file)])) "/jdk" "/jdk/bin"
      false = []
    ∧ toLowerStr (extnameOf "/jdk/a.pack") = ".pack"
    ∧ unpackJars (some FSTree.file) "/jdk/a.pack" "/jdk/bin" false =
      [mkUnpackCall false "/jdk/bin" "/jdk/a.pack"] := by
  refine ⟨?_, by decide, ?_⟩
  · have h0 : (toString 0 : String) = "0" := rfl
    simp +decide [unpackJars, findEntry, h0]
  · simp +decide [unpackJars]

/-- C3: for a fetch function that fails on its first N attempts and
succeeds on attempt N, `retry` with budget R ≥ N succeeds with exactly
N + 1 attempts, and with budget R < N fails with the max-retries error
after exactly R + 1 attempts. -/
theorem retry_attempts_spec {α : Type} (fn : Nat → Except String α) (v : α)
    (N R : Nat) (i : Int) (e : Bool) (fuel : Nat)
    (hfail : ∀ k, k < N → (fn k).isOk = false)
    (hsucc : fn N = .ok v)
    (hfuelN : N < fuel) (hfuelR : R < fuel) :
    (N ≤ R → ∃ res, retry fn 0 (R : Int) i e fuel = some res ∧
      res.result = .ok v ∧ res.attempts = N + 1)
    ∧ (R < N → ∃ res, retry fn 0 (R : Int) i e fuel = some res ∧
      res.result = .error maxRetriesMsg ∧ res.attempts = R + 1) := by
  constructor
  · intro hNR
    exact retry_succeeds fn v N 0 (R : Int) i e fuel
      (fun j hj => by simpa using hfail j hj)
      (by simpa using hsucc) (by omega) hfuelN
  · intro hRN
    exact retry_exhausts fn R 0 i e fuel
      (fun j hj => by simpa using hfail j (by omega)) hfuelR

/-- Witness for C3's theorem: a fetch that fails twice then succeeds,
run once with budget 3 (success in 3 attempts) and once with budget 1
(max-retries error after 2 attempts). -/
theorem retry_attempts_spec_witness :
    (∃ res, retry (fun k => if k < 2 then Except.error "boom"
        else Except.ok "file") 0 ((3 : Nat) : Int) 1000 true 4 = some res ∧
      res.result = Except.ok "file" ∧ res.attempts = 3)
    ∧ (∃ res, retry (fun k => if k < 2 then Except.error "boom"
        else Except.ok "file") 0 ((1 : Nat) : Int) 1000 true 4 = some res ∧
      res.result = Except.error maxRetriesMsg ∧ res.attempts = 2) := by
  constructor
  · exact (retry_attempts_spec (fun k => if k < 2 then Except.error "boom"
      else Except.ok "file") "file" 2 3 1000 true 4
      (by decide) rfl (by decide) (by decide)).1 (by decide)
  · exact (retry_attempts_spec (fun k => if k < 2 then Except.error "boom"
      else Except.ok "file") "file" 2 1 1000 true 4
      (by decide) rfl (by decide) (by decide)).2 (by decide)

/-- C5: `extractFiles` fails with the unknown-compression error for an
existing regular file with an unrecognized extension (the model carries
no file contents, so contents cannot influence the outcome), with the
ENOENT not-found error for a missing path, and with the directory error
— returning no extraction action — for a directory. -/
theorem extractFiles_error_spec (st : FileStat) (file ext : String) :
    (st = FileStat.regular → ext ≠ ".tar" → ext ≠ ".tar.gz" → ext ≠ ".zip" →
      ext ≠ ".7z" →
      extractFiles st file ext =
        .error ("Failed to extract " ++ file ++ " - unknown compression"))
    ∧ (st = FileStat.missing →
      extractFiles st file ext =
        .error ("ENOENT: no such file or directory, stat '" ++ file ++ "'"))
    ∧ (st = FileStat.directory →
      extractFiles st file ext =
        .error ("Failed to extract " ++ file ++ " - it is a directory")) := by
  refine ⟨?_, ?_, ?_⟩
  · intro h h1 h2 h3 h4
    subst h
    simp [extractFiles, statSync, h1, h2, h3, h4]
  · intro h
    subst h
    simp [extractFiles, statSync]
  · intro h
    subst h
    simp [extractFiles, statSync]

/-- Witness for C5's theorem: the three failure modes at concrete
inputs. -/
theorem extractFiles_error_spec_witness :
    extractFiles FileStat.regular "jdk.rar" ".rar" =
      .error ("Failed to extract " ++ "jdk.rar" ++ " - unknown compression")
    ∧ extractFiles FileStat.missing "jdk.zip" ".zip" =
      .error ("ENOENT: no such file or directory, stat '" ++ "jdk.zip" ++ "'")
    ∧ extractFiles FileStat.directory "jdkdir" ".tar.gz" =
      .error ("Failed to extract " ++ "jdkdir" ++ " - it is a directory") :=
  ⟨(extractFiles_error_spec FileStat.regular "jdk.rar" ".rar").1 rfl
      (by decide) (by decide) (by decide) (by decide),
   (extractFiles_error_spec FileStat.missing "jdk.zip" ".zip").2.1 rfl,
   (extractFiles_error_spec FileStat.directory "jdkdir" ".tar.gz").2.2 rfl⟩

/-- C6 (counterexample): with a zero budget and a first attempt failing
with "network down", `retry` performs one attempt and no delay, but the
error it propagates is the generic max-retries error, not that
attempt's error. -/
theorem retry_zero_budget_cex :
    retry (fun _ => (Except.error "network down" : Except String String))
      0 0 1000 false 1 = some ⟨Except.error maxRetriesMsg, 1, []⟩
    ∧ maxRetriesMsg ≠ "network down" :=
  ⟨rfl, by decide⟩

/-- C6 (amended): a retry budget of zero performs exactly one attempt
and fails immediately with no inter-attempt delay, throwing the
max-retries error (the failed attempt's own error is discarded). -/
theorem retry_zero_budget {α : Type} (fn : Nat → Except String α)
    (i : Int) (e : Bool) (fuel : Nat)
    (hfuel : 1 ≤ fuel) (hfail : (fn 0).isOk = false) :
    retry fn 0 0 i e fuel = some ⟨.error maxRetriesMsg, 1, []⟩ := by
  cases fuel with
  | zero => exact absurd hfuel (by omega)
  | succ f =>
    obtain ⟨e0, he0⟩ : ∃ e0, fn 0 = .error e0 := by
      cases hfn : fn 0 with
      | ok w => rw [hfn] at hfail; simp [Except.isOk, Except.toBool] at hfail
      | error e0 => exact ⟨e0, rfl⟩
    simp [retry, he0]

/-- Witness for C6's theorem at a concrete always-failing fetch. -/
theorem retry_zero_budget_witness :
    retry (fun _ => (Except.error "boom" : Except String String)) 0 0 500
      true 3 = some ⟨Except.error maxRetriesMsg, 1, []⟩ :=
  retry_zero_budget (fun _ => (Except.error "boom" : Except String String))
    500 true 3 (by omega) (by decide)

/-- C8: `getAdoptOpenJdkUrl` returns the latest-template URL exactly
when the release is "latest", and otherwise the exact-release-template
URL with the release identifier percent-encoded; in particular the "+"
in a release tag appears as "%2B". -/
theorem adoptUrl_template_spec (release_type version jvm_impl os arch
    heap_size release : String) :
    (release = "latest" →
      getAdoptOpenJdkUrl release_type version jvm_impl os arch heap_size
          release =
        "https://api.adoptopenjdk.net/v3/binary/latest/" ++
          getFeatureVersion version ++ "/" ++ getReleaseType release_type ++
          "/" ++ os ++ "/" ++ arch ++ "/jdk/" ++ jvm_impl ++ "/" ++
          heap_size ++ "/adoptopenjdk")
    ∧ (release ≠ "latest" →
      getAdoptOpenJdkUrl release_type version jvm_impl os arch heap_size
          release =
        "https://api.adoptopenjdk.net/v3/binary/version/" ++
          encodeURIComponent release ++ "/" ++ os ++ "/" ++ arch ++
          "/jdk/" ++ jvm_impl ++ "/" ++ heap_size ++ "/adoptopenjdk")
    ∧ encodeURIComponent "jdk-11.0.4+11.4" = "jdk-11.0.4%2B11.4" := by
  refine ⟨?_, ?_, by decide⟩
  · intro h
    simp [getAdoptOpenJdkUrl, h]
  · intro h
    simp [getAdoptOpenJdkUrl, h]

/-- Witness for C8's theorem: both templates at concrete requests. -/
theorem adoptUrl_template_spec_witness :
    getAdoptOpenJdkUrl "releases" "openjdk11" "hotspot" "linux" "x64"
        "normal" "latest" =
      "https://api.adoptopenjdk.net/v3/binary/latest/" ++
        getFeatureVersion "openjdk11" ++ "/" ++ getReleaseType "releases" ++
        "/" ++ "linux" ++ "/" ++ "x64" ++ "/jdk/" ++ "hotspot" ++ "/" ++
        "normal" ++ "/adoptopenjdk"
    ∧ getAdoptOpenJdkUrl "ga" "11" "hotspot" "mac" "x64" "normal"
        "jdk-11.0.4+11.4" =
      "https://api.adoptopenjdk.net/v3/binary/version/" ++
        encodeURIComponent "jdk-11.0.4+11.4" ++ "/" ++ "mac" ++ "/" ++
        "x64" ++ "/jdk/" ++ "hotspot" ++ "/" ++ "normal" ++
        "/adoptopenjdk" :=
  ⟨(adoptUrl_template_spec "releases" "openjdk11" "hotspot" "linux" "x64"
      "normal" "latest").1 rfl,
   (adoptUrl_template_spec "ga" "11" "hotspot" "mac" "x64" "normal"
      "jdk-11.0.4+11.4").2.1 (by decide)⟩

/-- C9: on a cache hit (a non-empty path from the tool-cache probe)
`downloadJavaBinary` performs only a debug message and the three
environment publications — `JAVA_HOME`, the version-and-architecture
qualified variable, and the `bin` path entry, all derived from the
cached path — and its trace contains no download, extraction, external
process, directory creation or cache-store effect. -/
theorem downloadJavaBinary_cache_hit (w : World)
    (release_type version jvm_impl os arch heap_size release p : String)
    (hp : w.findTool toolName
      (getCacheVersionSpec release_type version jvm_impl os heap_size
        release) arch = p)
    (hne : p ≠ "") :
    downloadJavaBinary w release_type version jvm_impl os arch heap_size
        release =
      (Except.ok (),
        [Action.debug ("Tool found in cache " ++ p),
         Action.exportVariable "JAVA_HOME" p,
         Action.exportVariable ("JAVA_HOME_" ++ version ++ "_" ++ arch) p,
         Action.addPath (pathJoin p "bin")])
    ∧ ∀ a ∈ (downloadJavaBinary w release_type version jvm_impl os arch
        heap_size release).2, isPipelineWork a = false := by
  have hmain : downloadJavaBinary w release_type version jvm_impl os arch
      heap_size release =
      (Except.ok (),
        [Action.debug ("Tool found in cache " ++ p),
         Action.exportVariable "JAVA_HOME" p,
         Action.exportVariable ("JAVA_HOME_" ++ version ++ "_" ++ arch) p,
         Action.addPath (pathJoin p "bin")]) := by
    simp only [downloadJavaBinary, hp, ne_eq]
    rw [if_pos hne]
    rfl
  refine ⟨hmain, ?_⟩
  rw [hmain]
  intro a ha
  simp only [List.mem_cons, List.not_mem_nil, or_false] at ha
  rcases ha with rfl | rfl | rfl | rfl <;> rfl

/-- A concrete world whose tool-cache probe always hits. -/
def hitWorld : World where
  isWindows := false
  isMacos := false
  tempDirectory := "/tmp"
  findTool := fun _ _ _ => "/cache/AdoptOpenJDK/1.0.0-ga-11/x64"
  fetch := fun _ => .error "offline"
  rand := 0
  stat := fun _ => .missing
  readdir := fun _ => []
  subtree := fun _ => none
  cacheDirResult := fun _ _ _ _ => ""

/-- Witness for C9's theorem in `hitWorld`. -/
theorem downloadJavaBinary_cache_hit_witness :
    downloadJavaBinary hitWorld "ga" "11" "hotspot" "linux" "x64" "normal"
        "latest" =
      (Except.ok (),
        [Action.debug ("Tool found in cache " ++
           "/cache/AdoptOpenJDK/1.0.0-ga-11/x64"),
         Action.exportVariable "JAVA_HOME"
           "/cache/AdoptOpenJDK/1.0.0-ga-11/x64",
         Action.exportVariable ("JAVA_HOME_" ++ "11" ++ "_" ++ "x64")
           "/cache/AdoptOpenJDK/1.0.0-ga-11/x64",
         Action.addPath
           (pathJoin "/cache/AdoptOpenJDK/1.0.0-ga-11/x64" "bin")]) :=
  (downloadJavaBinary_cache_hit hitWorld "ga" "11" "hotspot" "linux" "x64"
    "normal" "latest" "/cache/AdoptOpenJDK/1.0.0-ga-11/x64" rfl
    (by decide)).1

/-- C10: `retry` terminates for every nonnegative budget — fuel one
more than the budget always yields a result — and the nonnegativity is
necessary: with a negative budget and an always-failing fetch no amount
of fuel yields a result, i.e. the source recursion never reaches its
zero-budget terminal error. -/
theorem retry_termination_spec :
    (∀ (fn : Nat → Except String String) (r i : Int) (e : Bool) (fuel : Nat),
      0 ≤ r → r.toNat < fuel → (retry fn 0 r i e fuel).isSome = true)
    ∧ (∀ (fn : Nat → Except String String) (r i : Int) (e : Bool),
      r < 0 → (∀ k, (fn k).isOk = false) →
      ∀ fuel, retry fn 0 r i e fuel = none) := by
  constructor
  · intro fn r i e fuel hr hf
    exact retry_total fn fuel 0 r i e hr hf
  · intro fn r i e hr hfail fuel
    exact retry_neg_none fn hfail fuel 0 r i e hr

/-- Witness for C10's theorem: an always-failing fetch terminates with
budget 2 and adequate fuel, and diverges (exhausts any fuel) with
budget −1. -/
theorem retry_termination_spec_witness :
    (retry (fun _ => (Except.error "x" : Except String String)) 0 2 1000
      false 3).isSome = true
    ∧ retry (fun _ => (Except.error "x" : Except String String)) 0 (-1)
      1000 false 5 = none :=
  ⟨retry_termination_spec.1 (fun _ => Except.error "x") 2 1000 false 3
      (by decide) (by decide),
   retry_termination_spec.2 (fun _ => Except.error "x") (-1) 1000 false
      (by decide) (fun k => rfl) 5⟩

end SetupJdk
